import Mathlib

/-!
Verification of the oracle-analysis repository: a shallow embedding of the
oracle-identification engine (`oracle/identifiers.py`, `oracle/patterns.py`,
`oracle/models.py`) and of the batched event-fetch pipeline
(`market/events.py`), with theorems settling the specification claims.

Python `float` arithmetic on the decimal literals 0.6, 0.3, 0.1, 1.0 is
modelled with exact rationals (ℚ); Python exceptions are modelled with
`Except` values; the blockchain node is modelled as an explicit function
parameter supplying bytecode, transaction data and log-query results.
-/

namespace OracleAnalysis

attribute [local semireducible] Rat.mul Rat.inv Rat.add Rat.sub

/-- Python exceptions that the embedded code can raise. -/
inductive PyErr
  | zeroDivisionError
  | valueError (msg : String)
deriving Repr, DecidableEq

/-- Rendering `str(e)` of the embedded exceptions (CPython renderings). -/
def pyErrStr : PyErr → String
  | .zeroDivisionError => "division by zero"
  | .valueError msg => msg

/-- The transient exceptions caught by `fetch_events_batch`
(`web3.exceptions.BlockNotFound`, `web3.exceptions.ContractLogicError`). -/
inductive TransientError
  | blockNotFound
  | contractLogicError
deriving Repr, DecidableEq

/-- Embedding of `OracleType` from `oracle/models.py`: supported oracle protocol types. -/
inductive OracleType
  | CHAINLINK
  | TELLOR
  | REDSTONE
  | UNISWAP
  | PYTH
  | API3
  | BAND
  | DIA
  | UNKNOWN
deriving Repr, DecidableEq

/-- Embedding of `OraclePattern` from `oracle/models.py`.  The Python `Optional[List[str]]`
field `factory_addresses` (default `None`) is modelled as a list, with `[]`
standing for `None` or the empty list — `check_factory_match` only tests
falsiness and membership, which agree under this encoding.  The
documentation-only fields `creation_patterns` and `function_names` play no
role in identification and are omitted. -/
structure OraclePattern where
  function_patterns : List String
  storage_patterns : List String
  required_function_matches : Nat
  factory_addresses : List String := []
deriving Repr, DecidableEq

/-- Embedding of `OracleIdentificationResult` from `oracle/models.py`. -/
structure OracleIdentificationResult where
  oracle_type : OracleType
  address : String
  confidence : ℚ
  matched_functions : List String
  matched_storage : List String
  creation_match : Option Bool := none
  factory_match : Option Bool := none
  error : Option String := none
deriving Repr, DecidableEq

/-- Does `needle` occur at the head of `hay`?  (Character-wise prefix test,
used to embed Python substring containment.) -/
def listStartsWith : List Char → List Char → Bool
  | [], _ => true
  | _ :: _, [] => false
  | a :: as, b :: bs => a == b && listStartsWith as bs

/-- Does `needle` occur contiguously anywhere in `hay`?  (Embeds the Python
expression `needle in hay` on strings.) -/
def listContainsSeq (needle : List Char) : List Char → Bool
  | [] => needle.isEmpty
  | b :: bs => listStartsWith needle (b :: bs) || listContainsSeq needle bs

/-- Python `pat in hay` for strings: contiguous-substring containment. -/
def strContains (hay pat : String) : Bool :=
  listContainsSeq pat.data hay.data

/-- The Python builtin `min` on two numbers (`min(a, b)` returns `b` exactly
when `b < a`), written with an explicit comparison so that it evaluates in
the kernel. -/
def pymin (a b : ℚ) : ℚ := if b < a then b else a

theorem pymin_eq_min (a b : ℚ) : pymin a b = min a b := by
  unfold pymin
  rcases lt_or_le b a with h | h
  · rw [if_pos h]
    exact (min_eq_right h.le).symm
  · rw [if_neg (not_lt.mpr h)]
    exact (min_eq_left h).symm

/-- Embedding of `CHAINLINK_PATTERNS` from `oracle/patterns.py`. -/
def CHAINLINK_PATTERNS : OraclePattern where
  function_patterns :=
    ["63feaf968c", "6350d25bcd", "63668a0f02", "639a6fc8f5",
     "63313ce567", "638ac28d", "632fb5c8f"]
  storage_patterns := ["54roundId", "55answers", "54timestamp"]
  required_function_matches := 3
  factory_addresses :=
    ["0x47Fb2585D2C56Fe188D0E6ec628a38b74fCeeeDf",
     "0xf0c1f6c01dfaced1e9c6fcfbd1fd1f873bbf09ce"]

/-- Embedding of `TELLOR_PATTERNS` from `oracle/patterns.py`. -/
def TELLOR_PATTERNS : OraclePattern where
  function_patterns :=
    ["63a22cb465", "637584a157", "632f1be0c", "63842483d2", "635c1f0a0"]
  storage_patterns := ["54disputeId", "55stakeAmount", "54reportedValue"]
  required_function_matches := 2

/-- Embedding of `UNISWAP_PATTERNS` from `oracle/patterns.py`. -/
def UNISWAP_PATTERNS : OraclePattern where
  function_patterns :=
    ["63b7be1850", "636d154ea5", "63252c8c6c", "639a19a593"]
  storage_patterns := ["54price0", "54price1", "55cumulative"]
  required_function_matches := 2

/-- Embedding of `PYTH_PATTERNS` from `oracle/patterns.py`. -/
def PYTH_PATTERNS : OraclePattern where
  function_patterns :=
    ["63d24ce607", "63fe834482", "63313ce567", "63628f7074"]
  storage_patterns := ["54priceId", "55confidence", "54expo"]
  required_function_matches := 2

/-- Embedding of `REDSTONE_PATTERNS` from `oracle/patterns.py`. -/
def REDSTONE_PATTERNS : OraclePattern where
  function_patterns := ["63d0f2e915", "63c8e4de0d", "634554ee00"]
  storage_patterns := ["54dataFeed", "55timestamp", "54signature"]
  required_function_matches := 2

/-- The table `self.patterns` built in `OracleIdentifier.__init__`: the catalog as an
insertion-ordered association list (Python dicts preserve insertion order,
and `identify_oracle` iterates in that order). -/
def CATALOG : List (OracleType × OraclePattern) :=
  [(.CHAINLINK, CHAINLINK_PATTERNS),
   (.TELLOR, TELLOR_PATTERNS),
   (.UNISWAP, UNISWAP_PATTERNS),
   (.PYTH, PYTH_PATTERNS),
   (.REDSTONE, REDSTONE_PATTERNS)]

/-- Embedding of `OracleIdentifier.analyze_code_patterns`: the sublists of the
pattern function and storage fragment lists
that occur as substrings of the hex
representation of the bytecode. -/
def analyze_code_patterns (bytecode_hex : String) (pattern : OraclePattern) :
    List String × List String :=
  (pattern.function_patterns.filter (fun p => strContains bytecode_hex p),
   pattern.storage_patterns.filter (fun p => strContains bytecode_hex p))

/-- Embedding of `OracleIdentifier.check_factory_match`.  The code does NOT look up the
contract's creation transaction: it fetches the FIRST transaction of the
CURRENT HEAD block (`get_transaction_by_block(get_block_number(), 0)`) and
tests whether its sender is in the pattern's factory list.  `headTxFrom` is
that transaction's sender; `none` models a raised exception or a `None`
transaction, both of which make the function return `False`. -/
def check_factory_match (headTxFrom : Option String) (pattern : OraclePattern) :
    Bool :=
  if pattern.factory_addresses.isEmpty then false
  else
    match headTxFrom with
    | none => false
    | some sender => pattern.factory_addresses.contains sender

/-- Embedding of `OracleIdentifier.calculate_confidence`.  Python raises
`ZeroDivisionError` on `len(...) / 0`, so the embedding is `Except`-valued:
the function-pattern division runs first, then the storage division, exactly
as in the source.  The weights 0.6 / 0.3 / 0.1 are exact rationals. -/
def calculate_confidence (matched_functions matched_storage : List String)
    (pattern : OraclePattern) (factory_match : Bool) : Except PyErr ℚ :=
  if pattern.function_patterns.length = 0 then .error .zeroDivisionError
  else if pattern.storage_patterns.length = 0 then .error .zeroDivisionError
  else
    let func_confidence : ℚ :=
      ((matched_functions.length : ℚ) / (pattern.function_patterns.length : ℚ))
        * (6 / 10)
    let storage_confidence : ℚ :=
      ((matched_storage.length : ℚ) / (pattern.storage_patterns.length : ℚ))
        * (3 / 10)
    let factory_confidence : ℚ := if factory_match then 1 / 10 else 0
    let total := func_confidence + storage_confidence + factory_confidence
    let total := if matched_functions.length < pattern.required_function_matches
                 then 0 else total
    .ok (pymin 1 total)

/-- The best-match record built inside the loop of `identify_oracle`
(`OracleIdentificationResult(oracle_type=..., factory_match=...)`,
with `creation_match` and `error` left at their `None` defaults). -/
def mkMatchResult (address : String) (oracle_type : OracleType) (conf : ℚ)
    (mf ms : List String) (fm : Bool) : OracleIdentificationResult :=
  { oracle_type := oracle_type, address := address, confidence := conf,
    matched_functions := mf, matched_storage := ms, factory_match := some fm }

/-- The `for oracle_type, pattern in self.patterns.items()` loop of
`identify_oracle`, threading `highest_confidence` and `best_match`;
an exception escaping the loop body is propagated as `.error`. -/
def identify_loop (address bytecode_hex : String) (headTxFrom : Option String) :
    List (OracleType × OraclePattern) → ℚ → Option OracleIdentificationResult →
    Except PyErr (Option OracleIdentificationResult)
  | [], _, best => .ok best
  | (oracle_type, pattern) :: rest, highest, best =>
    let mf := (analyze_code_patterns bytecode_hex pattern).1
    let ms := (analyze_code_patterns bytecode_hex pattern).2
    let fm := check_factory_match headTxFrom pattern
    match calculate_confidence mf ms pattern fm with
    | .error e => .error e
    | .ok conf =>
      if highest < conf then
        identify_loop address bytecode_hex headTxFrom rest conf
          (some (mkMatchResult address oracle_type conf mf ms fm))
      else
        identify_loop address bytecode_hex headTxFrom rest highest best

/-- Embedding of `OracleIdentifier.identify_oracle`.  `bytecode` is what
`get_contract_code` returned (`none` for an address with no deployed code or
a failed fetch); `headTxFrom` is the head-block first-transaction sender used
by `check_factory_match`; `catalog` is `self.patterns`.  The outer
`try/except` converts an escaping exception into an UNKNOWN result carrying
`str(e)`. -/
def identify_oracle (address : String) (bytecode : Option String)
    (headTxFrom : Option String) (catalog : List (OracleType × OraclePattern)) :
    OracleIdentificationResult :=
  match bytecode with
  | none =>
    { oracle_type := .UNKNOWN, address := address, confidence := 0,
      matched_functions := [], matched_storage := [],
      error := some "No contract code found" }
  | some bytecode_hex =>
    match identify_loop address bytecode_hex headTxFrom catalog 0 none with
    | .error e =>
      { oracle_type := .UNKNOWN, address := address, confidence := 0,
        matched_functions := [], matched_storage := [],
        error := some (pyErrStr e) }
    | .ok best =>
      best.getD
        { oracle_type := .UNKNOWN, address := address, confidence := 0,
          matched_functions := [], matched_storage := [] }

/-- Python `range(start, stop, step)` for a positive step: the list
`[start, start + step, start + 2*step, ...]` of all elements below `stop`,
via the element-count formula `ceil((stop - start) / step)`. -/
def pyRange (start stop step : Nat) : List Nat :=
  (List.range ((stop - start + step - 1) / step)).map (fun i => start + i * step)

/-- Embedding of `MarketEventFetcher.fetch_events_batch`, recursion made
structural on the
number of retries still allowed (`remaining = max_retries - retry_count`).
`node s e k` is the outcome of the log query for blocks `[s, e]` on the
attempt with `retry_count = k` (filter creation plus `get_all_entries` plus
event processing, which the source performs wholesale inside the `try`).
The result pairs the list of back-off delays slept (each
`retry_delay * (retry_count + 1)`) with the final outcome. -/
def fetch_batch_go {E : Type} (node : Nat → Nat → Nat → Except TransientError (List E))
    (retry_delay : ℚ) (start_block end_block : Nat) :
    Nat → Nat → List ℚ × Except TransientError (List E)
  | retry_count, remaining =>
    match node start_block end_block retry_count with
    | .ok events => ([], .ok events)
    | .error e =>
      match remaining with
      | 0 => ([], .error e)
      | rem + 1 =>
        let rest := fetch_batch_go node retry_delay start_block end_block
                      (retry_count + 1) rem
        (retry_delay * ((retry_count : ℚ) + 1) :: rest.1, rest.2)

/-- Wrapper giving `fetch_events_batch(start_block, end_block, retry_count)`
the source signature: the guard
`retry_count >= self.max_retries` before re-raising corresponds to the
remaining-retries counter `max_retries - retry_count` reaching zero. -/
def fetch_events_batch {E : Type}
    (node : Nat → Nat → Nat → Except TransientError (List E))
    (max_retries : Nat) (retry_delay : ℚ) (start_block end_block : Nat)
    (retry_count : Nat) : List ℚ × Except TransientError (List E) :=
  fetch_batch_go node retry_delay start_block end_block retry_count
    (max_retries - retry_count)

/-- The events one sub-range contributes to `all_events` in `fetch_events`:
the batch's events on success, nothing when the batch re-raises (the
`except Exception: ... continue` arm skips the sub-range). -/
def batchEvents {E : Type} (node : Nat → Nat → Nat → Except TransientError (List E))
    (max_retries : Nat) (retry_delay : ℚ) (start_block end_block : Nat) : List E :=
  match (fetch_events_batch node max_retries retry_delay start_block end_block 0).2 with
  | .ok events => events
  | .error _ => []

/-- The sub-ranges `(batch_start, batch_end)` visited by the loop of
`fetch_events`, namely `for batch_start in range(start_block, end_block + 1, batch_size)` with
`batch_end = min(batch_start + batch_size - 1, end_block)`. -/
def batch_ranges (start_block end_block batch_size : Nat) : List (Nat × Nat) :=
  (pyRange start_block (end_block + 1) batch_size).map
    (fun b => (b, min (b + batch_size - 1) end_block))

/-- The body of the loop of `fetch_events`: extend `all_events` with each
batch of events in loop order, skipping sub-ranges whose batch fetch raised. -/
def fetch_loop {E : Type} (node : Nat → Nat → Nat → Except TransientError (List E))
    (max_retries : Nat) (retry_delay : ℚ) (end_block batch_size : Nat) :
    List Nat → List E
  | [] => []
  | b :: rest =>
    batchEvents node max_retries retry_delay b (min (b + batch_size - 1) end_block)
      ++ fetch_loop node max_retries retry_delay end_block batch_size rest

/-- Embedding of `MarketEventFetcher.fetch_events` with explicit arguments.  The source
raises `ValueError` when `start_block > end_block` (line order: this check
precedes the `total_batches` computation), then computes
`total_batches = (end_block - start_block) // batch_size + 1`, which raises
`ZeroDivisionError` when `batch_size == 0` — before any log query is issued.
On the happy path it returns the visited sub-ranges together with the
concatenated events. -/
def fetch_events {E : Type} (node : Nat → Nat → Nat → Except TransientError (List E))
    (max_retries : Nat) (retry_delay : ℚ) (start_block end_block batch_size : Nat) :
    Except PyErr (List (Nat × Nat) × List E) :=
  if end_block < start_block then
    .error (.valueError "Start block cannot be greater than end block")
  else if batch_size = 0 then .error .zeroDivisionError
  else
    .ok (batch_ranges start_block end_block batch_size,
         fetch_loop node max_retries retry_delay end_block batch_size
           (pyRange start_block (end_block + 1) batch_size))

/-- The value computed by `calculate_confidence` when neither pattern list is
empty, as a function of the match counts. -/
def confFormula (nf ns F S req : Nat) (fac : Bool) : ℚ :=
  min 1 (if nf < req then 0
         else ((nf : ℚ) / (F : ℚ)) * (6 / 10) + ((ns : ℚ) / (S : ℚ)) * (3 / 10)
           + if fac then 1 / 10 else 0)

theorem calculate_confidence_eq (mf ms : List String) (p : OraclePattern)
    (fac : Bool) (hF : p.function_patterns.length ≠ 0)
    (hS : p.storage_patterns.length ≠ 0) :
    calculate_confidence mf ms p fac =
      .ok (confFormula mf.length ms.length p.function_patterns.length
        p.storage_patterns.length p.required_function_matches fac) := by
  unfold calculate_confidence confFormula
  simp only [if_neg hF, if_neg hS, pymin_eq_min]

theorem confFormula_nonneg (nf ns F S req : Nat) (fac : Bool) :
    0 ≤ confFormula nf ns F S req fac := by
  unfold confFormula
  apply le_min (by norm_num)
  split
  · exact le_refl 0
  · have h1 : (0 : ℚ) ≤ ((nf : ℚ) / (F : ℚ)) * (6 / 10) := by positivity
    have h2 : (0 : ℚ) ≤ ((ns : ℚ) / (S : ℚ)) * (3 / 10) := by positivity
    have h3 : (0 : ℚ) ≤ if fac then (1 : ℚ) / 10 else 0 := by
      split <;> norm_num
    linarith

theorem confFormula_le_one (nf ns F S req : Nat) (fac : Bool) :
    confFormula nf ns F S req fac ≤ 1 :=
  min_le_left _ _

theorem confFormula_mono (nf nf' ns ns' F S req : Nat) (fac : Bool)
    (hf : nf ≤ nf') (hs : ns ≤ ns') :
    confFormula nf ns F S req fac ≤ confFormula nf' ns' F S req fac := by
  by_cases hg' : nf' < req
  · have hg : nf < req := lt_of_le_of_lt hf hg'
    unfold confFormula
    rw [if_pos hg, if_pos hg']
  · by_cases hg : nf < req
    · calc confFormula nf ns F S req fac = 0 := by unfold confFormula; rw [if_pos hg]; simp
        _ ≤ confFormula nf' ns' F S req fac := confFormula_nonneg ..
    · unfold confFormula
      rw [if_neg hg, if_neg hg']
      apply min_le_min (le_refl 1)
      have e1 : ((nf : ℚ) / (F : ℚ)) * (6 / 10) ≤ ((nf' : ℚ) / (F : ℚ)) * (6 / 10) := by
        have h : (nf : ℚ) ≤ (nf' : ℚ) := by exact_mod_cast hf
        have := div_le_div_of_nonneg_right h (Nat.cast_nonneg F)
        nlinarith
      have e2 : ((ns : ℚ) / (S : ℚ)) * (3 / 10) ≤ ((ns' : ℚ) / (S : ℚ)) * (3 / 10) := by
        have h : (ns : ℚ) ≤ (ns' : ℚ) := by exact_mod_cast hs
        have := div_le_div_of_nonneg_right h (Nat.cast_nonneg S)
        nlinarith
      linarith

/-- The pattern of the spec scenario: `F = 5` function selectors, `S = 3`
storage fragments, `required_function_matches = 3`. -/
def scenarioPattern : OraclePattern where
  function_patterns := ["f1", "f2", "f3", "f4", "f5"]
  storage_patterns := ["s1", "s2", "s3"]
  required_function_matches := 3

instance instDecEqExcept {ε α : Type} [DecidableEq ε] [DecidableEq α] :
    DecidableEq (Except ε α) := fun x y =>
  match x, y with
  | .error a, .error b =>
    if h : a = b then isTrue (congrArg Except.error h)
    else isFalse (fun hc => h (Except.error.inj hc))
  | .error _, .ok _ => isFalse (fun hc => Except.noConfusion hc)
  | .ok _, .error _ => isFalse (fun hc => Except.noConfusion hc)
  | .ok a, .ok b =>
    if h : a = b then isTrue (congrArg Except.ok h)
    else isFalse (fun hc => h (Except.ok.inj hc))

/-- C1: for every pattern with at least one function-selector pattern and at
least one storage pattern, `calculate_confidence` returns 0 when the number
of matched functions is below `required_function_matches`, and otherwise
returns `min 1 ((|mf|/F)*0.6 + (|ms|/S)*0.3 + (0.1 if factory else 0))`;
in particular on the spec scenario (F = 5, S = 3, required = 3) it returns
0.46 for 3 function matches, 1 storage match and no factory match, and
exactly 0 for only 2 function matches. -/
theorem claim_C1_confidence_formula :
    (∀ (p : OraclePattern) (mf ms : List String) (fac : Bool),
        1 ≤ p.function_patterns.length → 1 ≤ p.storage_patterns.length →
        (mf.length < p.required_function_matches →
            calculate_confidence mf ms p fac = .ok 0)
        ∧ (p.required_function_matches ≤ mf.length →
            calculate_confidence mf ms p fac =
              .ok (min 1
                (((mf.length : ℚ) / (p.function_patterns.length : ℚ)) * (6 / 10)
                  + ((ms.length : ℚ) / (p.storage_patterns.length : ℚ)) * (3 / 10)
                  + if fac then (1 : ℚ) / 10 else 0))))
    ∧ calculate_confidence ["a", "b", "c"] ["s"] scenarioPattern false
        = .ok (46 / 100)
    ∧ calculate_confidence ["a", "b"] ["s"] scenarioPattern false = .ok 0 := by
  refine ⟨fun p mf ms fac hF hS => ?_,
    by norm_num [calculate_confidence, scenarioPattern, pymin],
    by norm_num [calculate_confidence, scenarioPattern, pymin]⟩
  have hF0 : p.function_patterns.length ≠ 0 := by omega
  have hS0 : p.storage_patterns.length ≠ 0 := by omega
  rw [calculate_confidence_eq mf ms p fac hF0 hS0]
  constructor
  · intro hgate
    unfold confFormula
    rw [if_pos hgate]
    simp
  · intro hgate
    unfold confFormula
    rw [if_neg (by omega)]

/-- Closed witness for C1 at concrete inputs: the scenario pattern with 4
matched functions, 0 matched storage fragments and a factory match. -/
theorem claim_C1_confidence_formula_witness :
    calculate_confidence ["a", "b", "c", "d"] [] scenarioPattern true
      = .ok (29 / 50) := by
  have h := (claim_C1_confidence_formula.1 scenarioPattern
    ["a", "b", "c", "d"] [] true (by decide) (by decide)).2 (by decide)
  rw [h, ← pymin_eq_min]
  norm_num [pymin, scenarioPattern]

/-- C8: the spec demands that a pattern with an empty function-selector list
or an empty storage-pattern list contribute zero for that term and never
divide by zero; the code instead evaluates `len(...) / 0` and raises
`ZeroDivisionError` on every such pattern (code bug relative to the spec's
stated edge case). -/
theorem claim_C8_zero_division_raised :
    calculate_confidence [] []
        { function_patterns := [], storage_patterns := ["s"],
          required_function_matches := 0 } false
      = .error .zeroDivisionError
    ∧ calculate_confidence [] []
        { function_patterns := ["f"], storage_patterns := [],
          required_function_matches := 0 } false
      = .error .zeroDivisionError := by
  exact ⟨rfl, rfl⟩

/-- C9: with the pattern and factory flag held fixed, the confidence scorer
is monotonic non-decreasing in the number of matched functions and matched
storage fragments, and the hard gate forces the result to 0 whenever the
function-match count is below `required_function_matches`. -/
theorem claim_C9_monotonicity :
    ∀ (p : OraclePattern), 1 ≤ p.function_patterns.length →
      1 ≤ p.storage_patterns.length →
      (∀ (mf mf' ms ms' : List String) (fac : Bool),
          mf.length ≤ mf'.length → ms.length ≤ ms'.length →
          ∃ q q', calculate_confidence mf ms p fac = .ok q
            ∧ calculate_confidence mf' ms' p fac = .ok q' ∧ q ≤ q')
      ∧ (∀ (mf ms : List String) (fac : Bool),
          mf.length < p.required_function_matches →
          calculate_confidence mf ms p fac = .ok 0) := by
  intro p hF hS
  have hF0 : p.function_patterns.length ≠ 0 := by omega
  have hS0 : p.storage_patterns.length ≠ 0 := by omega
  constructor
  · intro mf mf' ms ms' fac hf hs
    refine ⟨_, _, calculate_confidence_eq mf ms p fac hF0 hS0,
      calculate_confidence_eq mf' ms' p fac hF0 hS0, ?_⟩
    exact confFormula_mono _ _ _ _ _ _ _ fac hf hs
  · intro mf ms fac hgate
    rw [calculate_confidence_eq mf ms p fac hF0 hS0]
    unfold confFormula
    rw [if_pos hgate]
    simp

/-- Closed witness for C9: monotonicity and the hard gate applied at
concrete inputs on the scenario pattern. -/
theorem claim_C9_monotonicity_witness :
    (∃ q q', calculate_confidence ["a", "b", "c"] [] scenarioPattern false = .ok q
      ∧ calculate_confidence ["a", "b", "c", "d"] ["s"] scenarioPattern false = .ok q'
      ∧ q ≤ q')
    ∧ calculate_confidence ["a"] ["s1", "s2", "s3"] scenarioPattern true = .ok 0 := by
  have h := claim_C9_monotonicity scenarioPattern (by decide) (by decide)
  exact ⟨h.1 ["a", "b", "c"] ["a", "b", "c", "d"] [] ["s"] false (by decide) (by decide),
    h.2 ["a"] ["s1", "s2", "s3"] true (by decide)⟩

/-- C4: for an address whose fetched bytecode is empty (`get_contract_code`
returned `None`), `identify_oracle` returns UNKNOWN with confidence 0, empty
match lists and the error message `"No contract code found"`, for EVERY
catalog and head-block transaction — i.e. immediately, without consulting
any signature pattern. -/
theorem claim_C4_empty_bytecode_unknown :
    ∀ (address : String) (headTxFrom : Option String)
      (catalog : List (OracleType × OraclePattern)),
      identify_oracle address none headTxFrom catalog =
        { oracle_type := .UNKNOWN, address := address, confidence := 0,
          matched_functions := [], matched_storage := [],
          error := some "No contract code found" } :=
  fun _ _ _ => rfl

/-- C6 (code bug): `identify_oracle` is NOT deterministic given the
address's bytecode alone.  `check_factory_match` reads the first transaction
of the CURRENT head block, so two calls with identical bytecode but a
different head-block transaction sender (here: an unrelated sender vs a
known Chainlink factory address) return different results — the confidence
and the `factory_match` flag both change. -/
theorem claim_C6_identify_not_bytecode_deterministic :
    (identify_oracle "0xfeed" (some "63feaf968c6350d25bcd63668a0f02")
        none CATALOG).factory_match = some false
    ∧ (identify_oracle "0xfeed" (some "63feaf968c6350d25bcd63668a0f02")
        (some "0x47Fb2585D2C56Fe188D0E6ec628a38b74fCeeeDf") CATALOG).factory_match
        = some true
    ∧ (identify_oracle "0xfeed" (some "63feaf968c6350d25bcd63668a0f02")
        none CATALOG).confidence = 9 / 35
    ∧ (identify_oracle "0xfeed" (some "63feaf968c6350d25bcd63668a0f02")
        (some "0x47Fb2585D2C56Fe188D0E6ec628a38b74fCeeeDf") CATALOG).confidence
        = 9 / 35 + 1 / 10
    ∧ identify_oracle "0xfeed" (some "63feaf968c6350d25bcd63668a0f02")
        none CATALOG
      ≠ identify_oracle "0xfeed" (some "63feaf968c6350d25bcd63668a0f02")
        (some "0x47Fb2585D2C56Fe188D0E6ec628a38b74fCeeeDf") CATALOG := by
  refine ⟨rfl, rfl, by decide, by decide, by decide⟩

/-- The factory check the spec asks for, for comparison with the code's
`check_factory_match`.  Modelled from the spec: `factory_match` = true iff
the contract's DEPLOYER address (the sender of the contract's creation
transaction) is a member of the pattern's factory-address set; false when
the deployer cannot be determined. -/
def factory_match_spec (deployer : Option String) (pattern : OraclePattern) :
    Bool :=
  match deployer with
  | some d => pattern.factory_addresses.contains d
  | none => false

/-- C7 (code bug): the code's factory check never consults the contract's
deployer — it tests the sender of the head block's first transaction.  For a
contract actually deployed by the known Chainlink factory
`0x47Fb2585D2C56Fe188D0E6ec628a38b74fCeeeDf`, the spec-mandated check is
true, yet the code returns false whenever the head-block transaction is
unavailable or from any other sender; conversely the code returns true for a
contract never deployed by a factory as soon as the head-block transaction
sender happens to be in the set. -/
theorem claim_C7_factory_match_wrong_transaction :
    factory_match_spec (some "0x47Fb2585D2C56Fe188D0E6ec628a38b74fCeeeDf")
        CHAINLINK_PATTERNS = true
    ∧ check_factory_match none CHAINLINK_PATTERNS = false
    ∧ check_factory_match (some "0xdeadbeef") CHAINLINK_PATTERNS = false
    ∧ factory_match_spec none CHAINLINK_PATTERNS = false
    ∧ check_factory_match
        (some "0x47Fb2585D2C56Fe188D0E6ec628a38b74fCeeeDf") CHAINLINK_PATTERNS
        = true :=
  ⟨rfl, rfl, by decide, rfl, by decide⟩

/-- The confidence `identify_oracle` computes for one catalog entry
(assuming neither pattern list is empty, so no exception). -/
def patternConfidence (bc : String) (headTxFrom : Option String)
    (p : OraclePattern) : ℚ :=
  confFormula (analyze_code_patterns bc p).1.length
    (analyze_code_patterns bc p).2.length p.function_patterns.length
    p.storage_patterns.length p.required_function_matches
    (check_factory_match headTxFrom p)

/-- The best-match record `identify_oracle` builds for one catalog entry. -/
def patternResult (address bc : String) (headTxFrom : Option String)
    (tp : OracleType × OraclePattern) : OracleIdentificationResult :=
  mkMatchResult address tp.1 (patternConfidence bc headTxFrom tp.2)
    (analyze_code_patterns bc tp.2).1 (analyze_code_patterns bc tp.2).2
    (check_factory_match headTxFrom tp.2)

/-- A catalog entry on which `calculate_confidence` cannot raise. -/
def entryOK (tp : OracleType × OraclePattern) : Prop :=
  tp.2.function_patterns.length ≠ 0 ∧ tp.2.storage_patterns.length ≠ 0

instance (tp : OracleType × OraclePattern) : Decidable (entryOK tp) := by
  unfold entryOK
  infer_instance

theorem identify_loop_cons (address bc : String) (headTxFrom : Option String)
    (ot : OracleType) (p : OraclePattern)
    (rest : List (OracleType × OraclePattern)) (hc : ℚ)
    (best : Option OracleIdentificationResult) (hok : entryOK (ot, p)) :
    identify_loop address bc headTxFrom ((ot, p) :: rest) hc best =
      if hc < patternConfidence bc headTxFrom p then
        identify_loop address bc headTxFrom rest
          (patternConfidence bc headTxFrom p)
          (some (patternResult address bc headTxFrom (ot, p)))
      else identify_loop address bc headTxFrom rest hc best := by
  simp only [identify_loop]
  rw [calculate_confidence_eq _ _ _ _ hok.1 hok.2]
  rfl

theorem identify_loop_all_le (address bc : String) (headTxFrom : Option String)
    (catalog : List (OracleType × OraclePattern)) (hc : ℚ)
    (best : Option OracleIdentificationResult)
    (hok : ∀ tp ∈ catalog, entryOK tp)
    (hle : ∀ tp ∈ catalog, patternConfidence bc headTxFrom tp.2 ≤ hc) :
    identify_loop address bc headTxFrom catalog hc best = .ok best := by
  induction catalog generalizing hc best with
  | nil => rfl
  | cons hd rest ih =>
    obtain ⟨ot, p⟩ := hd
    rw [identify_loop_cons address bc headTxFrom ot p rest hc best
      (hok _ (List.mem_cons_self _ _))]
    rw [if_neg (not_lt.mpr (hle _ (List.mem_cons_self _ _)))]
    exact ih hc best (fun tp h => hok tp (List.mem_cons_of_mem _ h))
      (fun tp h => hle tp (List.mem_cons_of_mem _ h))

theorem identify_loop_first_argmax (address bc : String)
    (headTxFrom : Option String) (catalog : List (OracleType × OraclePattern))
    (hc : ℚ) (best : Option OracleIdentificationResult)
    (hok : ∀ tp ∈ catalog, entryOK tp)
    (hex : ∃ tp ∈ catalog, hc < patternConfidence bc headTxFrom tp.2) :
    ∃ pre tp post, catalog = pre ++ tp :: post
      ∧ identify_loop address bc headTxFrom catalog hc best =
          .ok (some (patternResult address bc headTxFrom tp))
      ∧ hc < patternConfidence bc headTxFrom tp.2
      ∧ (∀ q ∈ catalog,
          patternConfidence bc headTxFrom q.2 ≤ patternConfidence bc headTxFrom tp.2)
      ∧ (∀ q ∈ pre,
          patternConfidence bc headTxFrom q.2 < patternConfidence bc headTxFrom tp.2) := by
  induction catalog generalizing hc best with
  | nil => obtain ⟨tp, htp, _⟩ := hex; exact absurd htp (List.not_mem_nil tp)
  | cons hd rest ih =>
    obtain ⟨ot, p⟩ := hd
    have hokhd : entryOK (ot, p) := hok _ (List.mem_cons_self _ _)
    have hokrest : ∀ tp ∈ rest, entryOK tp :=
      fun tp h => hok tp (List.mem_cons_of_mem _ h)
    rw [identify_loop_cons address bc headTxFrom ot p rest hc best hokhd]
    by_cases hlt : hc < patternConfidence bc headTxFrom p
    · rw [if_pos hlt]
      by_cases hex2 : ∃ tp ∈ rest,
          patternConfidence bc headTxFrom p < patternConfidence bc headTxFrom tp.2
      · obtain ⟨pre, tp, post, heq, hloop, hlt2, hall, hpre⟩ :=
          ih _ _ hokrest hex2
        refine ⟨(ot, p) :: pre, tp, post, by rw [heq]; rfl, hloop,
          lt_trans hlt hlt2, ?_, ?_⟩
        · intro q hq
          rcases List.mem_cons.mp hq with hq | hq
          · subst hq; exact hlt2.le
          · exact hall q hq
        · intro q hq
          rcases List.mem_cons.mp hq with hq | hq
          · subst hq; exact hlt2
          · exact hpre q hq
      · push_neg at hex2
        refine ⟨[], (ot, p), rest, rfl, ?_, hlt, ?_, ?_⟩
        · exact identify_loop_all_le address bc headTxFrom rest _ _ hokrest hex2
        · intro q hq
          rcases List.mem_cons.mp hq with hq | hq
          · subst hq; exact le_refl _
          · exact hex2 q hq
        · intro q hq; exact absurd hq (List.not_mem_nil q)
    · rw [if_neg hlt]
      have hex2 : ∃ tp ∈ rest, hc < patternConfidence bc headTxFrom tp.2 := by
        obtain ⟨tp, htp, hgt⟩ := hex
        rcases List.mem_cons.mp htp with htp | htp
        · subst htp; exact absurd hgt hlt
        · exact ⟨tp, htp, hgt⟩
      obtain ⟨pre, tp, post, heq, hloop, hlt2, hall, hpre⟩ :=
        ih _ _ hokrest hex2
      have hplt : patternConfidence bc headTxFrom p
          < patternConfidence bc headTxFrom tp.2 :=
        lt_of_le_of_lt (not_lt.mp hlt) hlt2
      refine ⟨(ot, p) :: pre, tp, post, by rw [heq]; rfl, hloop, hlt2, ?_, ?_⟩
      · intro q hq
        rcases List.mem_cons.mp hq with hq | hq
        · subst hq; exact hplt.le
        · exact hall q hq
      · intro q hq
        rcases List.mem_cons.mp hq with hq | hq
        · subst hq; exact hplt
        · exact hpre q hq

/-- C5: for an address with non-empty bytecode (and a catalog on which the
scorer cannot raise), `identify_oracle` returns the result built from the
catalog entry with the strictly highest confidence, ties keeping the
earliest entry in iteration order (every entry listed before the winner has
strictly lower confidence, every entry anywhere has no higher confidence);
and when no entry yields confidence > 0 it returns UNKNOWN with confidence 0
and empty match lists. -/
theorem claim_C5_highest_confidence_wins (address bc : String)
    (headTxFrom : Option String) (catalog : List (OracleType × OraclePattern))
    (hok : ∀ tp ∈ catalog, entryOK tp) :
    ((∀ tp ∈ catalog, patternConfidence bc headTxFrom tp.2 ≤ 0) →
      identify_oracle address (some bc) headTxFrom catalog =
        { oracle_type := .UNKNOWN, address := address, confidence := 0,
          matched_functions := [], matched_storage := [] })
    ∧ ((∃ tp ∈ catalog, 0 < patternConfidence bc headTxFrom tp.2) →
      ∃ pre tp post, catalog = pre ++ tp :: post
        ∧ identify_oracle address (some bc) headTxFrom catalog =
            patternResult address bc headTxFrom tp
        ∧ 0 < patternConfidence bc headTxFrom tp.2
        ∧ (∀ q ∈ catalog, patternConfidence bc headTxFrom q.2
            ≤ patternConfidence bc headTxFrom tp.2)
        ∧ (∀ q ∈ pre, patternConfidence bc headTxFrom q.2
            < patternConfidence bc headTxFrom tp.2)) := by
  constructor
  · intro hle
    have hloop := identify_loop_all_le address bc headTxFrom catalog 0 none hok hle
    simp [identify_oracle, hloop]
  · intro hex
    obtain ⟨pre, tp, post, heq, hloop, hpos, hall, hpre⟩ :=
      identify_loop_first_argmax address bc headTxFrom catalog 0 none hok hex
    refine ⟨pre, tp, post, heq, ?_, hpos, hall, hpre⟩
    simp [identify_oracle, hloop]

/-- Closed witness for C5: on empty bytecode no catalog entry of the real
catalog scores above 0, so `identify_oracle` returns the UNKNOWN result with
empty match lists (and no error message). -/
theorem claim_C5_highest_confidence_wins_witness :
    identify_oracle "0xW" (some "") none CATALOG =
      { oracle_type := .UNKNOWN, address := "0xW", confidence := 0,
        matched_functions := [], matched_storage := [] } :=
  (claim_C5_highest_confidence_wins "0xW" "" none CATALOG (by decide)).1
    (by decide)

theorem pyRange_eq_nil (start stop step : Nat) (hstep : 1 ≤ step)
    (h : stop ≤ start) : pyRange start stop step = [] := by
  unfold pyRange
  have h0 : stop - start = 0 := by omega
  rw [h0, Nat.div_eq_of_lt (by omega)]
  rfl

theorem pyRange_cons (start stop step : Nat) (hstep : 1 ≤ step)
    (h : start < stop) :
    pyRange start stop step = start :: pyRange (start + step) stop step := by
  unfold pyRange
  have hcount : (stop - start + step - 1) / step
      = (stop - (start + step) + step - 1) / step + 1 := by
    have e : stop - start + step - 1 = (stop - start - 1) + step := by omega
    rw [e, Nat.add_div_right _ (by omega)]
    rcases le_or_lt (start + step) stop with hc | hc
    · have e2 : stop - (start + step) + step - 1 = stop - start - 1 := by omega
      rw [e2]
    · have e2 : stop - (start + step) = 0 := by omega
      rw [e2, Nat.div_eq_of_lt (by omega), Nat.div_eq_of_lt (by omega)]
  rw [hcount, List.range_succ_eq_map, List.map_cons, List.map_map]
  congr 1
  · simp
  · apply List.map_congr_left
    intro i _
    show start + (i + 1) * step = start + step + i * step
    ring

theorem batch_ranges_eq_nil (s e bs : Nat) (hbs : 1 ≤ bs) (h : e < s) :
    batch_ranges s e bs = [] := by
  unfold batch_ranges
  rw [pyRange_eq_nil _ _ _ hbs (by omega)]
  rfl

theorem batch_ranges_cons (s e bs : Nat) (hbs : 1 ≤ bs) (h : s ≤ e) :
    batch_ranges s e bs
      = (s, min (s + bs - 1) e) :: batch_ranges (s + bs) e bs := by
  unfold batch_ranges
  rw [pyRange_cons _ _ _ hbs (by omega)]
  rfl

theorem batch_ranges_cover (bs : Nat) (hbs : 1 ≤ bs) :
    ∀ n s e, e + 1 - s ≤ n → s ≤ e →
      (batch_ranges s e bs).flatMap (fun r => List.range' r.1 (r.2 + 1 - r.1))
        = List.range' s (e + 1 - s) := by
  intro n
  induction n with
  | zero => intro s e hn hse; omega
  | succ n ih =>
    intro s e hn hse
    rw [batch_ranges_cons s e bs hbs hse, List.flatMap_cons]
    rcases le_or_lt (s + bs) e with hc | hc
    · have hmin : min (s + bs - 1) e = s + bs - 1 := min_eq_left (by omega)
      rw [hmin, ih (s + bs) e (by omega) (by omega)]
      have h1 : (s, s + bs - 1).2 + 1 - (s, s + bs - 1).1 = bs := by
        show s + bs - 1 + 1 - s = bs
        omega
      rw [h1]
      show List.range' s bs ++ List.range' (s + bs) (e + 1 - (s + bs))
          = List.range' s (e + 1 - s)
      rw [List.range'_append_1 s bs (e + 1 - (s + bs))]
      congr 1
      omega
    · have hmin : min (s + bs - 1) e = e := min_eq_right (by omega)
      rw [hmin, batch_ranges_eq_nil (s + bs) e bs hbs (by omega)]
      show List.range' s (e + 1 - s) ++ List.flatMap [] _ = List.range' s (e + 1 - s)
      simp

theorem batch_ranges_chain (bs : Nat) (hbs : 1 ≤ bs) :
    ∀ n s e, e + 1 - s ≤ n →
      List.Chain' (fun a b : Nat × Nat => b.1 = a.2 + 1) (batch_ranges s e bs) := by
  intro n
  induction n with
  | zero =>
    intro s e hn
    rw [batch_ranges_eq_nil s e bs hbs (by omega)]
    exact List.chain'_nil
  | succ n ih =>
    intro s e hn
    rcases le_or_lt s e with hse | hse
    · rw [batch_ranges_cons s e bs hbs hse]
      rcases le_or_lt (s + bs) e with hc | hc
      · rw [batch_ranges_cons (s + bs) e bs hbs (by omega)]
        apply List.chain'_cons.mpr
        constructor
        · show s + bs = min (s + bs - 1) e + 1
          have := min_eq_left (show s + bs - 1 ≤ e by omega)
          omega
        · rw [← batch_ranges_cons (s + bs) e bs hbs (by omega)]
          exact ih (s + bs) e (by omega)
      · rw [batch_ranges_eq_nil (s + bs) e bs hbs (by omega)]
        exact List.chain'_singleton _
    · rw [batch_ranges_eq_nil s e bs hbs (by omega)]
      exact List.chain'_nil

theorem batch_ranges_len_le (bs : Nat) (hbs : 1 ≤ bs) :
    ∀ n s e, e + 1 - s ≤ n →
      ∀ r ∈ batch_ranges s e bs, r.2 + 1 - r.1 ≤ bs := by
  intro n
  induction n with
  | zero =>
    intro s e hn r hr
    rw [batch_ranges_eq_nil s e bs hbs (by omega)] at hr
    exact absurd hr (List.not_mem_nil r)
  | succ n ih =>
    intro s e hn r hr
    rcases le_or_lt s e with hse | hse
    · rw [batch_ranges_cons s e bs hbs hse] at hr
      rcases List.mem_cons.mp hr with hr | hr
      · subst hr
        have h1 := min_le_left (s + bs - 1) e
        show min (s + bs - 1) e + 1 - s ≤ bs
        omega
      · exact ih (s + bs) e (by omega) r hr
    · rw [batch_ranges_eq_nil s e bs hbs (by omega)] at hr
      exact absurd hr (List.not_mem_nil r)

theorem batch_ranges_dropLast_full (bs : Nat) (hbs : 1 ≤ bs) :
    ∀ n s e, e + 1 - s ≤ n →
      ∀ r ∈ (batch_ranges s e bs).dropLast, r.2 + 1 - r.1 = bs := by
  intro n
  induction n with
  | zero =>
    intro s e hn r hr
    rw [batch_ranges_eq_nil s e bs hbs (by omega)] at hr
    exact absurd hr (List.not_mem_nil r)
  | succ n ih =>
    intro s e hn r hr
    rcases le_or_lt s e with hse | hse
    · rw [batch_ranges_cons s e bs hbs hse] at hr
      rcases le_or_lt (s + bs) e with hc | hc
      · rw [batch_ranges_cons (s + bs) e bs hbs (by omega),
          List.dropLast_cons₂,
          ← batch_ranges_cons (s + bs) e bs hbs (by omega)] at hr
        rcases List.mem_cons.mp hr with hr | hr
        · subst hr
          have hmin : min (s + bs - 1) e = s + bs - 1 := min_eq_left (by omega)
          show min (s + bs - 1) e + 1 - s = bs
          omega
        · exact ih (s + bs) e (by omega) r hr
      · rw [batch_ranges_eq_nil (s + bs) e bs hbs (by omega)] at hr
        simp at hr
    · rw [batch_ranges_eq_nil s e bs hbs (by omega)] at hr
      exact absurd hr (List.not_mem_nil r)

theorem fetch_batch_go_fail {E : Type}
    (node : Nat → Nat → Nat → Except TransientError (List E)) (d : ℚ)
    (s e : Nat) (errf : Nat → TransientError)
    (hfail : ∀ k, node s e k = .error (errf k)) :
    ∀ rem rc, fetch_batch_go node d s e rc rem
      = ((List.range rem).map (fun k => d * (((rc + k : Nat) : ℚ) + 1)),
         .error (errf (rc + rem))) := by
  intro rem
  induction rem with
  | zero =>
    intro rc
    unfold fetch_batch_go
    rw [hfail rc]
    rfl
  | succ rem ih =>
    intro rc
    have hgo : fetch_batch_go node d s e rc (rem + 1)
        = (d * ((rc : ℚ) + 1) :: (fetch_batch_go node d s e (rc + 1) rem).1,
           (fetch_batch_go node d s e (rc + 1) rem).2) := by
      conv_lhs => unfold fetch_batch_go
      rw [hfail rc]
    have hlist : List.map (fun k => d * (((rc + 1 + k : Nat) : ℚ) + 1)) (List.range rem)
        = List.map ((fun k => d * (((rc + k : Nat) : ℚ) + 1)) ∘ Nat.succ)
            (List.range rem) := by
      apply List.map_congr_left
      intro i _
      show d * (((rc + 1 + i : Nat) : ℚ) + 1) = d * (((rc + (i + 1) : Nat) : ℚ) + 1)
      push_cast
      ring
    rw [hgo, ih (rc + 1)]
    show (d * ((rc : ℚ) + 1)
            :: List.map (fun k => d * (((rc + 1 + k : Nat) : ℚ) + 1)) (List.range rem),
          (Except.error (errf (rc + 1 + rem)) : Except TransientError (List E)))
        = _
    have hidx : rc + 1 + rem = rc + (rem + 1) := by omega
    rw [hidx, List.range_succ_eq_map, List.map_cons, List.map_map, hlist]
    simp

theorem fetch_loop_eq_flatMap {E : Type}
    (node : Nat → Nat → Nat → Except TransientError (List E))
    (mr : Nat) (d : ℚ) (e bs : Nat) :
    ∀ l : List Nat, fetch_loop node mr d e bs l
      = l.flatMap (fun b => batchEvents node mr d b (min (b + bs - 1) e)) := by
  intro l
  induction l with
  | nil => rfl
  | cons b rest ih =>
    rw [List.flatMap_cons, ← ih]
    rfl

/-- C10: with `batch_size = 0` and a valid range, `fetch_events` fails with
the uncaught `ZeroDivisionError` raised by the `total_batches` computation —
for EVERY node, i.e. before any log query is issued — rather than with the
`ValueError` used for invalid ranges; nothing ever validates the
`batch_size ≥ 1` precondition. -/
theorem claim_C10_zero_batch_size_division (E : Type)
    (node : Nat → Nat → Nat → Except TransientError (List E))
    (mr : Nat) (d : ℚ) (s e : Nat) (hse : s ≤ e) :
    fetch_events node mr d s e 0 = .error .zeroDivisionError := by
  unfold fetch_events
  rw [if_neg (by omega), if_pos rfl]

/-- Closed witness for C10: the range `[1000, 2999]` with `batch_size = 0`
on a node that would answer every query successfully. -/
theorem claim_C10_zero_batch_size_division_witness :
    fetch_events (fun _ _ _ => .ok ([] : List Nat)) 3 1 1000 2999 0
      = .error .zeroDivisionError :=
  claim_C10_zero_batch_size_division Nat (fun _ _ _ => .ok []) 3 1 1000 2999
    (by decide)

/-- C2: for every `start ≤ end` and `batch_size ≥ 1`, `fetch_events`
processes exactly the sub-ranges `batch_ranges start end batch_size`, in
order, and these sub-ranges tile `[start, end]`: their concatenated block
lists equal the ascending enumeration of `[start, end]` (no gaps, no
overlaps), consecutive sub-ranges abut, every sub-range has length at most
`batch_size`, every non-final sub-range has length exactly `batch_size`;
and the range `[1000, 2999]` with `batch_size = 1000` yields exactly
`[(1000, 1999), (2000, 2999)]`. -/
theorem claim_C2_batch_partition (E : Type)
    (node : Nat → Nat → Nat → Except TransientError (List E))
    (mr : Nat) (d : ℚ) (s e bs : Nat) (hse : s ≤ e) (hbs : 1 ≤ bs) :
    fetch_events node mr d s e bs
      = .ok (batch_ranges s e bs,
          fetch_loop node mr d e bs (pyRange s (e + 1) bs))
    ∧ (batch_ranges s e bs).flatMap (fun r => List.range' r.1 (r.2 + 1 - r.1))
        = List.range' s (e + 1 - s)
    ∧ List.Chain' (fun a b : Nat × Nat => b.1 = a.2 + 1) (batch_ranges s e bs)
    ∧ (∀ r ∈ batch_ranges s e bs, r.2 + 1 - r.1 ≤ bs)
    ∧ (∀ r ∈ (batch_ranges s e bs).dropLast, r.2 + 1 - r.1 = bs)
    ∧ batch_ranges 1000 2999 1000 = [(1000, 1999), (2000, 2999)] := by
  refine ⟨?_, ?_, ?_, ?_, ?_, ?_⟩
  · unfold fetch_events
    rw [if_neg (by omega), if_neg (by omega)]
  · exact batch_ranges_cover bs hbs (e + 1 - s) s e (le_refl _) hse
  · exact batch_ranges_chain bs hbs (e + 1 - s) s e (le_refl _)
  · exact batch_ranges_len_le bs hbs (e + 1 - s) s e (le_refl _)
  · exact batch_ranges_dropLast_full bs hbs (e + 1 - s) s e (le_refl _)
  · decide

/-- Closed witness for C2: the spec scenario, extracted by applying the
theorem at the range `[1000, 2999]` with `batch_size = 1000`. -/
theorem claim_C2_batch_partition_witness :
    batch_ranges 1000 2999 1000 = [(1000, 1999), (2000, 2999)] :=
  (claim_C2_batch_partition Nat (fun _ _ _ => .ok []) 3 1 1000 2999 1000
    (by decide) (by decide)).2.2.2.2.2

/-- C3: when the node raises a transient error for one sub-range on the
initial attempt and on every retry, `fetch_events_batch` performs exactly
`max_retries` retries with linear back-off — the delay before the k-th retry
is `retry_delay * k` — and then re-raises the error of the final attempt;
at the aggregate level that sub-range contributes no events
(`batchEvents = []`), while `fetch_events` still completes with `.ok`,
returning the concatenation, in sub-range order, of every sub-range's
events. -/
theorem claim_C3_retry_then_skip (E : Type)
    (node : Nat → Nat → Nat → Except TransientError (List E))
    (mr : Nat) (d : ℚ) (sf ef : Nat) (errf : Nat → TransientError)
    (hfail : ∀ k, node sf ef k = .error (errf k)) :
    fetch_events_batch node mr d sf ef 0
      = ((List.range mr).map (fun k => d * (((k : Nat) : ℚ) + 1)),
         .error (errf mr))
    ∧ batchEvents node mr d sf ef = []
    ∧ (∀ s e bs, s ≤ e → 1 ≤ bs →
        fetch_events node mr d s e bs
          = .ok (batch_ranges s e bs,
              (batch_ranges s e bs).flatMap
                (fun r => batchEvents node mr d r.1 r.2))) := by
  have hbatch : fetch_events_batch node mr d sf ef 0
      = ((List.range mr).map (fun k => d * (((k : Nat) : ℚ) + 1)),
         .error (errf mr)) := by
    unfold fetch_events_batch
    rw [fetch_batch_go_fail node d sf ef errf hfail (mr - 0) 0]
    simp
  refine ⟨hbatch, ?_, ?_⟩
  · unfold batchEvents
    rw [hbatch]
  · intro s e bs hse hbs
    unfold fetch_events
    rw [if_neg (by omega), if_neg (by omega)]
    rw [fetch_loop_eq_flatMap node mr d e bs (pyRange s (e + 1) bs)]
    unfold batch_ranges
    rw [List.flatMap_map]

def nodeC3 : Nat → Nat → Nat → Except TransientError (List Nat) :=
  fun s _ _ => if s = 2000 then .error .blockNotFound else .ok [s]

/-- Closed witness for C3: over `[1000, 2999]` with `batch_size = 1000`,
`max_retries = 3` and `retry_delay = 1`, the node always fails on the
sub-range starting at block `2000`; the batch for that sub-range sleeps
`1, 2, 3` and re-raises, and the overall fetch completes with only the
first sub-range's events. -/
theorem claim_C3_retry_then_skip_witness :
    fetch_events_batch nodeC3 3 1 2000 2999 0
      = ([1 * ((0 : ℚ) + 1), 1 * ((1 : ℚ) + 1), 1 * ((2 : ℚ) + 1)],
         .error .blockNotFound)
    ∧ batchEvents nodeC3 3 1 2000 2999 = []
    ∧ fetch_events nodeC3 3 1 1000 2999 1000
        = .ok ([(1000, 1999), (2000, 2999)], [1000]) := by
  have h := claim_C3_retry_then_skip Nat nodeC3 3 1 2000 2999
    (fun _ => .blockNotFound) (fun _ => rfl)
  refine ⟨?_, h.2.1, ?_⟩
  · rw [h.1]
    decide
  · rw [h.2.2 1000 2999 1000 (by decide) (by decide)]
    decide

end OracleAnalysis
